import Mathlib

/- Verification development for the BMP tools of this repository:
   bmp_converter.cpp (convert_bmp_24_to_4_depth and its helpers) and
   bmp_file_tester.cpp (the header inspector).  The programs are embedded
   shallowly: the input file is a byte stream modelled as a function from
   byte offsets to byte values, and every source function is translated to
   an executable Lean definition. -/

/-- One 24-bit pixel as stored on disk (struct rgb_triple in the source):
blue, green, red byte components, 3 bytes, no padding.  Components are
modelled as Nat; the program only ever stores byte values in them. -/
structure rgb_triple where
  blue : Nat
  green : Nat
  red : Nat

/-- One 32-bit palette entry (struct rgb_quad in the source): blue, green,
red, reserved bytes in that order. -/
structure rgb_quad where
  blue : Nat
  green : Nat
  red : Nat
  reserved : Nat

/-- The 14-byte BITMAPFILEHEADER record (struct bitmap_file_header).  Fields
hold the parsed little-endian values; bf_type and the two reserved fields are
16 bit, bf_size and bf_off_bits are 32 bit. -/
structure bitmap_file_header where
  bf_type : Nat
  bf_size : Nat
  bf_reserved1 : Nat
  bf_reserved2 : Nat
  bf_off_bits : Nat

/-- The 40-byte BITMAPINFOHEADER record (struct bitmap_info_header).  The
two signed fields bi_width and bi_height are kept as their raw unsigned
little-endian 32-bit values; all theorems about the conversion loop restrict
them to values below 2 ^ 31, that is, to nonnegative int32 values, which is
the only regime in which the source loops are well defined. -/
structure bitmap_info_header where
  bi_size : Nat
  bi_width : Nat
  bi_height : Nat
  bi_planes : Nat
  bi_bit_count : Nat
  bi_compression : Nat
  bi_size_image : Nat
  bi_x_pels_per_meter : Nat
  bi_y_pels_per_meter : Nat
  bi_clr_used : Nat
  bi_clr_important : Nat

/-- Default palette entry used only as the out-of-range default of List.getD
in specification statements; every index that occurs is in range. -/
def qzero : rgb_quad := ⟨0, 0, 0, 0⟩

/-- Squared Euclidean distance between a pixel and a palette entry, the
quantity compared by utils::color_distance in the source.  The source
computes sqrt(pow(b2-b1,2) + pow(g2-g1,2) + pow(r2-r1,2)) in double
precision and only ever compares two such distances.  For byte components
the three squared differences and their sum (at most 3 * 255 ^ 2 = 195075)
are exact integers, exactly representable in double, and the correctly
rounded square roots of distinct integers in that range differ by far more
than one ulp, so the comparator order of the double square roots is exactly
the order of the integer squared distances modelled here. -/
def color_distance2 (color1 : rgb_triple) (color2 : rgb_quad) : Int :=
  ((color2.blue : Int) - (color1.blue : Int)) ^ 2 +
    ((color2.green : Int) - (color1.green : Int)) ^ 2 +
    ((color2.red : Int) - (color1.red : Int)) ^ 2

/-- Linear scan of std::ranges::min_element as used by
utils::find_closest_color: walk the remaining entries, keeping the index
and distance of the current best entry, and replace the best only when a
later entry is strictly closer, so the first minimum wins.  The argument i
is the index of the head of the remaining list in the full palette. -/
def minIdxAux (c : rgb_triple) : List rgb_quad → Nat → Nat → Int → Nat
  | [], _, best, _ => best
  | q :: rest, i, best, bestd =>
    if color_distance2 c q < bestd then
      minIdxAux c rest (i + 1) i (color_distance2 c q)
    else
      minIdxAux c rest (i + 1) best bestd

/-- utils::find_closest_color: index of the palette entry closest to the
color, with ties broken by first occurrence (std::ranges::min_element
returns the first smallest element).  On the empty list min_element returns
the end iterator and std::distance gives 0. -/
def find_closest_color (c : rgb_triple) (pal : List rgb_quad) : Nat :=
  match pal with
  | [] => 0
  | q :: rest => minIdxAux c rest 1 0 (color_distance2 c q)

/-- The constant 16-entry Super Cassette Vision palette from the source,
in source order, each entry written as blue, green, red, reserved. -/
def palette : List rgb_quad :=
  [⟨0x00, 0x00, 0x00, 0x00⟩,
   ⟨0x00, 0x00, 0xFF, 0x00⟩,
   ⟨0x00, 0xA1, 0xFF, 0x00⟩,
   ⟨0x9F, 0xA0, 0xFF, 0x00⟩,
   ⟨0x00, 0xFF, 0xFF, 0x00⟩,
   ⟨0x00, 0xA0, 0xA3, 0x00⟩,
   ⟨0x00, 0xA1, 0x00, 0x00⟩,
   ⟨0x00, 0xFF, 0x00, 0x00⟩,
   ⟨0x9D, 0xFF, 0xA0, 0x00⟩,
   ⟨0x9B, 0x00, 0x00, 0x00⟩,
   ⟨0xFF, 0x00, 0x00, 0x00⟩,
   ⟨0xFF, 0x00, 0xA2, 0x00⟩,
   ⟨0xFF, 0x00, 0xFF, 0x00⟩,
   ⟨0xFF, 0xFF, 0x00, 0x00⟩,
   ⟨0x9F, 0xA1, 0xA2, 0x00⟩,
   ⟨0xFF, 0xFF, 0xFF, 0x00⟩]

/-- Little-endian 16-bit read from the byte stream at a given offset. -/
def readU16 (s : Nat → Nat) (o : Nat) : Nat :=
  s o + 256 * s (o + 1)

/-- Little-endian 32-bit read from the byte stream at a given offset. -/
def readU32 (s : Nat → Nat) (o : Nat) : Nat :=
  s o + 256 * s (o + 1) + 65536 * s (o + 2) + 16777216 * s (o + 3)

/-- The first input_file.read of the converter and the tester: transcribe
the 14 header bytes at offsets 0..13 into the packed bitmap_file_header
layout. -/
def parse_file_header (s : Nat → Nat) : bitmap_file_header :=
  { bf_type := readU16 s 0
    bf_size := readU32 s 2
    bf_reserved1 := readU16 s 6
    bf_reserved2 := readU16 s 8
    bf_off_bits := readU32 s 10 }

/-- The second input_file.read: transcribe the 40 info header bytes at
offsets 14..53 into the packed bitmap_info_header layout. -/
def parse_info_header (s : Nat → Nat) : bitmap_info_header :=
  { bi_size := readU32 s 14
    bi_width := readU32 s 18
    bi_height := readU32 s 22
    bi_planes := readU16 s 26
    bi_bit_count := readU16 s 28
    bi_compression := readU32 s 30
    bi_size_image := readU32 s 34
    bi_x_pels_per_meter := readU32 s 38
    bi_y_pels_per_meter := readU32 s 42
    bi_clr_used := readU32 s 46
    bi_clr_important := readU32 s 50 }

/-- The row size computed by the converter for the 4-bit output:
static_cast of std::ceil(target_bitcount * bi_width / 32) * 4.  Since
target_bitcount * bi_width / 32 is evaluated in int arithmetic, the
division truncates before std::ceil sees the value, so std::ceil is the
identity and the whole expression is (4 * width / 32) * 4 with truncating
division (valid for nonnegative widths, where C truncation is floor). -/
def row_size (width : Nat) : Nat :=
  4 * width / 32 * 4

/-- The header rewrite performed by the converter before writing (source
lines: pixel_array_size, bf_size, bf_off_bits, bi_bit_count).  All stores
into the 32-bit fields are reduced modulo 2 ^ 32 as the uint32_t fields of
the source are.  Note that bf_size is assigned pixel_array_size plus the
two header sizes (14 + 40) only, and that bi_bit_count is the only info
header field assigned. -/
def update_headers (fh : bitmap_file_header) (ih : bitmap_info_header) :
    bitmap_file_header × bitmap_info_header :=
  let rs := row_size ih.bi_width
  let pixel_array_size := rs * ih.bi_height % 4294967296
  ({ fh with
      bf_size := (pixel_array_size + 14 + 40) % 4294967296
      bf_off_bits := (fh.bf_off_bits + 64) % 4294967296 },
   { ih with bi_bit_count := 4 })

/-- One 3-byte pixel read starting at the given cursor: the blue, green and
red bytes in stream order, as std::pair members are filled by the 6-byte
input_file.read of the conversion loop. -/
def read_triple (s : Nat → Nat) (k : Nat) : rgb_triple :=
  { blue := s k, green := s (k + 1), red := s (k + 2) }

/-- The packed output byte of the conversion loop: high nibble is the index
of the first (left) pixel shifted left by 4 (std::byte truncates to 8
bits), low nibble is the index of the second (right) pixel. -/
def pack_two (hi lo : Nat) : Nat :=
  ((hi <<< 4) % 256) ||| lo

/-- The inner column loop of convert_bmp_24_to_4_depth: while col < width,
read a 6-byte pixel pair at the cursor, quantize both pixels, emit one
packed byte, then advance col by 2 and the cursor by 6.  Returns the bytes
written and the final cursor.  The fuel argument only bounds the recursion
depth so that the definition is structurally recursive and kernel
reducible; col grows by 2 each step, so fuel = width dominates the
iteration count and the guard col < width alone decides when the loop
stops. -/
def pack_loop (s : Nat → Nat) (w : Nat) : Nat → Nat → Nat → List Nat × Nat
  | 0, _, k => ([], k)
  | fuel + 1, col, k =>
    if col < w then
      let b := pack_two (find_closest_color (read_triple s k) palette)
        (find_closest_color (read_triple s (k + 3)) palette)
      let r := pack_loop s w fuel (col + 2) (k + 6)
      (b :: r.1, r.2)
    else ([], k)

/-- One iteration of the outer row loop body: the inner loop started at
column 0.  Takes the stream, the width and the cursor where the reads of
this row begin; returns the packed bytes of the row and the cursor after
the row. -/
def pack_pairs (s : Nat → Nat) (w k : Nat) : List Nat × Nat :=
  pack_loop s w w 0 k

/-- The outer row loop of convert_bmp_24_to_4_depth: h rows, each running
the inner loop from column 0, with the cursor carried from row to row (the
source never repositions the input stream, so reads are contiguous and the
4-byte row alignment padding of the 24-bit input is never skipped). -/
def convert_rows (s : Nat → Nat) (w : Nat) : Nat → Nat → List Nat × Nat
  | 0, k => ([], k)
  | h + 1, k =>
    let row := pack_pairs s w k
    let rest := convert_rows s w h row.2
    (row.1 ++ rest.1, rest.2)

/-- The two failure exits of convert_bmp_24_to_4_depth that depend on the
input bytes: the signature check (bf_type must be 0x4D42) and the depth
check (bi_bit_count must be 24), in source order. -/
inductive conv_error
  | signature_error
  | depth_error

/-- Everything the converter writes to the output file, in write order:
the rewritten file header, the rewritten info header, the 16 palette
entries written verbatim from the constant table, then the packed pixel
bytes. -/
structure conv_output where
  file_header : bitmap_file_header
  info_header : bitmap_info_header
  palette_entries : List rgb_quad
  pixel_bytes : List Nat

/-- convert_bmp_24_to_4_depth on a byte stream: read both headers (the
cursor is then at 54), reject a bad signature, then reject a depth other
than 24, and only then produce output.  In the source the output file is
opened only after both checks succeed, so an error exit creates and writes
nothing; here an error result carries no output at all. -/
def convert (s : Nat → Nat) : Except conv_error conv_output :=
  let fh := parse_file_header s
  let ih := parse_info_header s
  if fh.bf_type ≠ 0x4D42 then Except.error conv_error.signature_error
  else if ih.bi_bit_count ≠ 24 then Except.error conv_error.depth_error
  else
    let u := update_headers fh ih
    let px := convert_rows s ih.bi_width ih.bi_height 54
    Except.ok
      { file_header := u.1
        info_header := u.2
        palette_entries := palette
        pixel_bytes := px.1 }

/-- The main routine of bmp_file_tester.cpp: read both headers, reject a
bad signature with a failing exit status, otherwise report width, height
and bits per pixel. -/
def inspect (s : Nat → Nat) : Except conv_error (Nat × Nat × Nat) :=
  let fh := parse_file_header s
  let ih := parse_info_header s
  if fh.bf_type ≠ 0x4D42 then Except.error conv_error.signature_error
  else Except.ok (ih.bi_width, ih.bi_height, ih.bi_bit_count)

/-- A well-formed minimal 24-bit BMP input of width 1 and height 1: valid
signature, bf_off_bits 54, bi_bit_count 24, one black pixel (plus the
bytes the over-reading loop touches). -/
def stream1x1 : Nat → Nat := fun i =>
  List.getD
    [0x42, 0x4D, 118, 0, 0, 0, 0, 0, 0, 0, 54, 0, 0, 0,
     40, 0, 0, 0, 1, 0, 0, 0, 1, 0, 0, 0, 1, 0, 24, 0,
     0, 0, 0, 0, 0, 0, 0, 0, 0, 0, 0, 0, 0, 0, 0, 0, 0, 0, 0, 0, 0, 0, 0, 0,
     0, 0, 0, 0, 0, 0] i 0

/-- A well-formed 24-bit BMP input of width 2 and height 1 whose two pixels
are pure black (blue 0, green 0, red 0) and pure white (blue 255, green
255, red 255). -/
def stream2x1 : Nat → Nat := fun i =>
  List.getD
    [0x42, 0x4D, 70, 0, 0, 0, 0, 0, 0, 0, 54, 0, 0, 0,
     40, 0, 0, 0, 2, 0, 0, 0, 1, 0, 0, 0, 1, 0, 24, 0,
     0, 0, 0, 0, 0, 0, 0, 0, 0, 0, 0, 0, 0, 0, 0, 0, 0, 0, 0, 0, 0, 0, 0, 0,
     0, 0, 0, 255, 255, 255] i 0

/-- An input with a valid BMP signature whose bi_bit_count field (bytes 28
and 29) holds 32 instead of 24. -/
def stream_depth32 : Nat → Nat := fun i =>
  if i = 0 then 0x42 else if i = 1 then 0x4D else if i = 28 then 32 else 0

/-- Invariant of the min_element scan: the returned index is either the
incoming best (when nothing in the remaining list is strictly closer than
the incoming best distance) or i + j for the first list position j that
attains the minimum distance, in which case position j is strictly closer
than the incoming best and than every earlier list position, and at least
as close as every later one. -/
theorem minIdxAux_spec (c : rgb_triple) (l : List rgb_quad) :
    ∀ (i best : Nat) (bestd : Int),
      (minIdxAux c l i best bestd = best ∧
        ∀ m, m < l.length → bestd ≤ color_distance2 c (l.getD m qzero)) ∨
      (∃ j, j < l.length ∧
        minIdxAux c l i best bestd = i + j ∧
        color_distance2 c (l.getD j qzero) < bestd ∧
        (∀ m, m < j →
          color_distance2 c (l.getD j qzero) < color_distance2 c (l.getD m qzero)) ∧
        (∀ m, j ≤ m → m < l.length →
          color_distance2 c (l.getD j qzero) ≤ color_distance2 c (l.getD m qzero))) := by
  induction l with
  | nil =>
    intro i best bestd
    left
    refine ⟨rfl, ?_⟩
    intro m hm
    simp at hm
  | cons q rest ih =>
    intro i best bestd
    by_cases h : color_distance2 c q < bestd
    · rcases ih (i + 1) i (color_distance2 c q) with ⟨heq, hall⟩ |
        ⟨j, hj, heq, hlt, hbefore, hafter⟩
      · right
        refine ⟨0, by simp, ?_, ?_, ?_, ?_⟩
        · simp only [minIdxAux, if_pos h]
          rw [heq]
          omega
        · simpa using h
        · intro m hm
          exact absurd hm (Nat.not_lt_zero m)
        · intro m hm0 hmlen
          cases m with
          | zero => exact le_refl _
          | succ m2 =>
            simp only [List.getD_cons_succ, List.getD_cons_zero]
            refine hall m2 ?_
            simp only [List.length_cons] at hmlen
            omega
      · right
        refine ⟨j + 1, by simp only [List.length_cons]; omega, ?_, ?_, ?_, ?_⟩
        · simp only [minIdxAux, if_pos h]
          rw [heq]
          omega
        · simp only [List.getD_cons_succ]
          exact lt_trans hlt h
        · intro m hm
          cases m with
          | zero =>
            simp only [List.getD_cons_succ, List.getD_cons_zero]
            exact hlt
          | succ m2 =>
            simp only [List.getD_cons_succ]
            exact hbefore m2 (by omega)
        · intro m hm1 hm2
          cases m with
          | zero => exact absurd hm1 (by omega)
          | succ m2 =>
            simp only [List.getD_cons_succ]
            refine hafter m2 (by omega) ?_
            simp only [List.length_cons] at hm2
            omega
    · rcases ih (i + 1) best bestd with ⟨heq, hall⟩ |
        ⟨j, hj, heq, hlt, hbefore, hafter⟩
      · left
        refine ⟨?_, ?_⟩
        · simp only [minIdxAux, if_neg h]
          exact heq
        · intro m hm
          cases m with
          | zero => simpa using le_of_not_lt h
          | succ m2 =>
            simp only [List.getD_cons_succ]
            refine hall m2 ?_
            simp only [List.length_cons] at hm
            omega
      · right
        refine ⟨j + 1, by simp only [List.length_cons]; omega, ?_, ?_, ?_, ?_⟩
        · simp only [minIdxAux, if_neg h]
          rw [heq]
          omega
        · simp only [List.getD_cons_succ]
          exact hlt
        · intro m hm
          cases m with
          | zero =>
            simp only [List.getD_cons_succ, List.getD_cons_zero]
            exact lt_of_lt_of_le hlt (le_of_not_lt h)
          | succ m2 =>
            simp only [List.getD_cons_succ]
            exact hbefore m2 (by omega)
        · intro m hm1 hm2
          cases m with
          | zero => exact absurd hm1 (by omega)
          | succ m2 =>
            simp only [List.getD_cons_succ]
            refine hafter m2 (by omega) ?_
            simp only [List.length_cons] at hm2
            omega

/-- On any nonempty list, find_closest_color returns an in-range index
whose entry is at least as close as every entry and strictly closer than
every entry at a smaller index. -/
theorem find_closest_color_least (c : rgb_triple) (q0 : rgb_quad)
    (rest : List rgb_quad) :
    find_closest_color c (q0 :: rest) < (q0 :: rest).length ∧
    (∀ m, m < (q0 :: rest).length →
      color_distance2 c ((q0 :: rest).getD (find_closest_color c (q0 :: rest)) qzero) ≤
        color_distance2 c ((q0 :: rest).getD m qzero)) ∧
    (∀ m, m < find_closest_color c (q0 :: rest) →
      color_distance2 c ((q0 :: rest).getD (find_closest_color c (q0 :: rest)) qzero) <
        color_distance2 c ((q0 :: rest).getD m qzero)) := by
  have hdef : find_closest_color c (q0 :: rest) =
      minIdxAux c rest 1 0 (color_distance2 c q0) := rfl
  rcases minIdxAux_spec c rest 1 0 (color_distance2 c q0) with ⟨heq, hall⟩ |
    ⟨j, hj, heq, hlt, hbefore, hafter⟩
  · have hr : find_closest_color c (q0 :: rest) = 0 := by rw [hdef, heq]
    rw [hr]
    refine ⟨by simp only [List.length_cons]; omega, ?_, ?_⟩
    · intro m hm
      cases m with
      | zero => exact le_refl _
      | succ m2 =>
        simp only [List.getD_cons_succ, List.getD_cons_zero]
        refine hall m2 ?_
        simp only [List.length_cons] at hm
        omega
    · intro m hm
      exact absurd hm (Nat.not_lt_zero m)
  · have hr : find_closest_color c (q0 :: rest) = j + 1 := by
      rw [hdef, heq]
      omega
    rw [hr]
    refine ⟨by simp only [List.length_cons]; omega, ?_, ?_⟩
    · intro m hm
      cases m with
      | zero =>
        simp only [List.getD_cons_succ, List.getD_cons_zero]
        exact le_of_lt hlt
      | succ m2 =>
        simp only [List.getD_cons_succ]
        by_cases hmj : m2 < j
        · exact le_of_lt (hbefore m2 hmj)
        · refine hafter m2 (by omega) ?_
          simp only [List.length_cons] at hm
          omega
    · intro m hm
      cases m with
      | zero =>
        simp only [List.getD_cons_succ, List.getD_cons_zero]
        exact hlt
      | succ m2 =>
        simp only [List.getD_cons_succ]
        exact hbefore m2 (by omega)

/-- Byte count and cursor advance of the inner column loop: starting at any
column with enough fuel, the loop emits one byte and consumes 6 stream
bytes per iteration, and it iterates exactly ceil((w - col) / 2) times. -/
theorem pack_loop_spec (s : Nat → Nat) (w : Nat) :
    ∀ (fuel col k : Nat), w ≤ col + fuel →
      (pack_loop s w fuel col k).1.length = (w - col + 1) / 2 ∧
      (pack_loop s w fuel col k).2 = k + 6 * ((w - col + 1) / 2) := by
  intro fuel
  induction fuel with
  | zero =>
    intro col k h
    constructor
    · simp [pack_loop]
      omega
    · simp [pack_loop]
      omega
  | succ fuel ih =>
    intro col k h
    by_cases hc : col < w
    · obtain ⟨ih1, ih2⟩ := ih (col + 2) (k + 6) (by omega)
      constructor
      · simp only [pack_loop, if_pos hc, List.length_cons]
        rw [ih1]
        omega
      · simp only [pack_loop, if_pos hc]
        rw [ih2]
        omega
    · constructor
      · simp only [pack_loop, if_neg hc]
        simp
        omega
      · simp only [pack_loop, if_neg hc]
        omega

/-- Cursor advance of the outer row loop: each of the h rows consumes
exactly 6 * ceil((w + 1) / 2) input bytes, contiguously. -/
theorem convert_rows_cursor (s : Nat → Nat) (w : Nat) :
    ∀ (h k : Nat), (convert_rows s w h k).2 = k + h * (6 * ((w + 1) / 2)) := by
  intro h
  induction h with
  | zero =>
    intro k
    simp [convert_rows]
  | succ h ih =>
    intro k
    have hp := (pack_loop_spec s w w 0 k (by omega)).2
    simp only [convert_rows, pack_pairs]
    rw [ih, hp]
    simp only [Nat.sub_zero]
    ring

/-- C1: the claim states that for every accepted input of width W and
height H the written FileHeader.fileSize equals 4*ceil(W/8)*H + 14 + 40 +
64.  The code disagrees: on the accepted 1 by 1 input it writes bf_size =
54, because the row size is computed with integer division before
std::ceil (so it is 4*floor(W/8), which is 0 for W = 1) and because the 64
palette bytes, although written to the file and added to bf_off_bits, are
never added to bf_size.  The claimed value for W = 1, H = 1 is
4*ceil(1/8)*1 + 118 = 122. -/
theorem convert_width1_bf_size :
    (convert stream1x1).map (fun o => o.file_header.bf_size) = Except.ok 54 ∧
    (54 : Nat) ≠ 4 * ((1 + 7) / 8) * 1 + 14 + 40 + 64 :=
  ⟨rfl, by decide⟩

/-- C2: the claim states that a row of width W is emitted as exactly
4*ceil(W/8) bytes, padded to a 4-byte boundary.  The code disagrees: the
inner loop writes exactly one byte per pixel pair and never writes any
padding byte, so on the accepted 2 by 1 input the single row is emitted as
ceil(2/2) = 1 byte, while the claim requires 4*ceil(2/8) = 4 bytes.  The
header arithmetic of the same function assumes 4-byte aligned rows, so the
code contradicts itself. -/
theorem convert_width2_row_bytes :
    (convert stream2x1).map (fun o => o.pixel_bytes.length) = Except.ok 1 ∧
    (1 : Nat) ≠ 4 * ((2 + 7) / 8) :=
  ⟨rfl, by decide⟩

/-- C3: for every 24-bit color c, find_closest_color returns the least
index in [0,16) whose palette entry has minimal (squared) Euclidean
distance to c: the result is in range, its entry is at least as close as
every entry, it is strictly closer than every lower-indexed entry (so ties
go to the lower index), and whenever one entry p is strictly closer than
all 15 others the result is exactly p. -/
theorem find_closest_color_least_min (c : rgb_triple) :
    find_closest_color c palette < 16 ∧
    (∀ j, j < 16 →
      color_distance2 c (palette.getD (find_closest_color c palette) qzero) ≤
        color_distance2 c (palette.getD j qzero)) ∧
    (∀ j, j < find_closest_color c palette →
      color_distance2 c (palette.getD (find_closest_color c palette) qzero) <
        color_distance2 c (palette.getD j qzero)) ∧
    (∀ p, p < 16 →
      (∀ j, j < 16 → j ≠ p →
        color_distance2 c (palette.getD p qzero) <
          color_distance2 c (palette.getD j qzero)) →
      find_closest_color c palette = p) := by
  have h := find_closest_color_least c (palette.headD qzero) palette.tail
  have hpal : palette.headD qzero :: palette.tail = palette := rfl
  rw [hpal] at h
  have hlen : palette.length = 16 := rfl
  rw [hlen] at h
  obtain ⟨h1, h2, h3⟩ := h
  refine ⟨h1, h2, h3, ?_⟩
  intro p hp hstrict
  by_contra hne
  have ha := h2 p hp
  have hb := hstrict (find_closest_color c palette) h1 hne
  exact absurd (lt_of_le_of_lt ha hb) (lt_irrefl _)

/-- Witness for C3 at the concrete color (10, 200, 30). -/
theorem find_closest_color_least_min_witness :
    find_closest_color ⟨10, 200, 30⟩ palette < 16 ∧
    color_distance2 ⟨10, 200, 30⟩
        (palette.getD (find_closest_color ⟨10, 200, 30⟩ palette) qzero) ≤
      color_distance2 ⟨10, 200, 30⟩ (palette.getD 7 qzero) :=
  ⟨(find_closest_color_least_min ⟨10, 200, 30⟩).1,
   (find_closest_color_least_min ⟨10, 200, 30⟩).2.1 7 (by decide)⟩

/-- C4: converting the 2 by 1 input with pixels black (0,0,0) and white
(255,255,255) succeeds and produces exactly the rewritten headers, the
unmodified 16-entry palette, and a single packed pixel byte 0x0F (high
nibble 0 = black for the left pixel, low nibble 15 = white for the right
pixel). -/
theorem convert_two_pixel_example :
    convert stream2x1 = Except.ok
      { file_header :=
          { bf_type := 0x4D42, bf_size := 54, bf_reserved1 := 0,
            bf_reserved2 := 0, bf_off_bits := 118 }
        info_header :=
          { bi_size := 40, bi_width := 2, bi_height := 1, bi_planes := 1,
            bi_bit_count := 4, bi_compression := 0, bi_size_image := 0,
            bi_x_pels_per_meter := 0, bi_y_pels_per_meter := 0,
            bi_clr_used := 0, bi_clr_important := 0 }
        palette_entries := palette
        pixel_bytes := [0x0F] } :=
  rfl

/-- C5: for every odd row width w (in int32 range) the inner loop performs
ceil(w/2) = (w+1)/2 pixel pair reads, each emitting one byte and consuming
two 3-byte pixels, so the row consumes 2 * ((w+1)/2) = w + 1 pixels, that
is 3 * (w+1) stream bytes: one pixel past the declared row width. -/
theorem odd_width_pair_overread (s : Nat → Nat) (w k : Nat)
    (hodd : w % 2 = 1) (hw : w < 2147483648) :
    (pack_pairs s w k).1.length = (w + 1) / 2 ∧
    2 * ((w + 1) / 2) = w + 1 ∧
    (pack_pairs s w k).2 = k + 3 * (w + 1) := by
  have h := pack_loop_spec s w w 0 k (by omega)
  have hlen : (pack_pairs s w k).1.length = (w - 0 + 1) / 2 := h.1
  have hcur : (pack_pairs s w k).2 = k + 6 * ((w - 0 + 1) / 2) := h.2
  refine ⟨by omega, by omega, by omega⟩

/-- Witness for C5 at width 3, cursor 54. -/
theorem odd_width_pair_overread_witness :
    (pack_pairs (fun _ => 0) 3 54).1.length = (3 + 1) / 2 ∧
    2 * ((3 + 1) / 2) = 3 + 1 ∧
    (pack_pairs (fun _ => 0) 3 54).2 = 54 + 3 * (3 + 1) :=
  odd_width_pair_overread (fun _ => 0) 3 54 (by decide) (by decide)

/-- C6: for every input stream whose first two bytes are not 0x42 0x4D,
both the converter and the inspector stop with the signature error.  In
the source the output file is opened only after this check succeeds, and
in this model an error result carries no output at all, so no output is
created. -/
theorem signature_mismatch_rejected (s : Nat → Nat)
    (h0 : s 0 < 256) (h1 : s 1 < 256)
    (hne : s 0 ≠ 0x42 ∨ s 1 ≠ 0x4D) :
    convert s = Except.error conv_error.signature_error ∧
    inspect s = Except.error conv_error.signature_error := by
  have ht : (parse_file_header s).bf_type ≠ 0x4D42 := by
    have e : (parse_file_header s).bf_type = s 0 + 256 * s 1 := rfl
    rw [e]
    rcases hne with h | h <;> omega
  constructor
  · simp only [convert]
    rw [if_pos ht]
  · simp only [inspect]
    rw [if_pos ht]

/-- Witness for C6 at the all-zero stream. -/
theorem signature_mismatch_rejected_witness :
    convert (fun _ => 0) = Except.error conv_error.signature_error ∧
    inspect (fun _ => 0) = Except.error conv_error.signature_error :=
  signature_mismatch_rejected (fun _ => 0) (by decide) (by decide)
    (Or.inl (by decide))

/-- C7: for every input with a valid signature whose bits-per-pixel field
is not 24, the converter stops with the depth error.  The depth test is
the branch taken after the signature test succeeds and, in the source,
before the output file is opened, so nothing is written. -/
theorem depth_mismatch_rejected (s : Nat → Nat)
    (hsig : (parse_file_header s).bf_type = 0x4D42)
    (hbc : (parse_info_header s).bi_bit_count ≠ 24) :
    convert s = Except.error conv_error.depth_error := by
  simp only [convert]
  rw [if_neg (not_not_intro hsig), if_pos hbc]

/-- Witness for C7 at a stream with a valid signature and bit count 32. -/
theorem depth_mismatch_rejected_witness :
    convert stream_depth32 = Except.error conv_error.depth_error :=
  depth_mismatch_rejected stream_depth32 (by decide) (by decide)

/-- C8: for every accepted header pair (bits-per-pixel 24), the info
header written out differs from the parsed one exactly in bi_bit_count,
which becomes 4; the other ten fields, including bi_size_image, are
written unchanged. -/
theorem info_header_only_bit_count_changed (fh : bitmap_file_header)
    (ih : bitmap_info_header) (h24 : ih.bi_bit_count = 24) :
    ((update_headers fh ih).2.bi_bit_count = 4 ∧
      (update_headers fh ih).2.bi_bit_count ≠ ih.bi_bit_count) ∧
    (update_headers fh ih).2.bi_size = ih.bi_size ∧
    (update_headers fh ih).2.bi_width = ih.bi_width ∧
    (update_headers fh ih).2.bi_height = ih.bi_height ∧
    (update_headers fh ih).2.bi_planes = ih.bi_planes ∧
    (update_headers fh ih).2.bi_compression = ih.bi_compression ∧
    (update_headers fh ih).2.bi_size_image = ih.bi_size_image ∧
    (update_headers fh ih).2.bi_x_pels_per_meter = ih.bi_x_pels_per_meter ∧
    (update_headers fh ih).2.bi_y_pels_per_meter = ih.bi_y_pels_per_meter ∧
    (update_headers fh ih).2.bi_clr_used = ih.bi_clr_used ∧
    (update_headers fh ih).2.bi_clr_important = ih.bi_clr_important := by
  simp [update_headers, h24]

/-- A concrete file header used by the C8 witness. -/
def fh_w : bitmap_file_header := ⟨0x4D42, 70, 0, 0, 54⟩

/-- A concrete 24-bit info header used by the C8 witness. -/
def ih_w : bitmap_info_header := ⟨40, 2, 1, 1, 24, 0, 0, 0, 0, 0, 0⟩

/-- Witness for C8 at concrete headers. -/
theorem info_header_only_bit_count_changed_witness :
    ((update_headers fh_w ih_w).2.bi_bit_count = 4 ∧
      (update_headers fh_w ih_w).2.bi_bit_count ≠ ih_w.bi_bit_count) ∧
    (update_headers fh_w ih_w).2.bi_size = ih_w.bi_size ∧
    (update_headers fh_w ih_w).2.bi_width = ih_w.bi_width ∧
    (update_headers fh_w ih_w).2.bi_height = ih_w.bi_height ∧
    (update_headers fh_w ih_w).2.bi_planes = ih_w.bi_planes ∧
    (update_headers fh_w ih_w).2.bi_compression = ih_w.bi_compression ∧
    (update_headers fh_w ih_w).2.bi_size_image = ih_w.bi_size_image ∧
    (update_headers fh_w ih_w).2.bi_x_pels_per_meter = ih_w.bi_x_pels_per_meter ∧
    (update_headers fh_w ih_w).2.bi_y_pels_per_meter = ih_w.bi_y_pels_per_meter ∧
    (update_headers fh_w ih_w).2.bi_clr_used = ih_w.bi_clr_used ∧
    (update_headers fh_w ih_w).2.bi_clr_important = ih_w.bi_clr_important :=
  info_header_only_bit_count_changed fh_w ih_w rfl

/-- C9: find_closest_color is total and deterministic on the fixed
palette: for every color the result is an index in [0,16), and any two
calls on componentwise equal colors return the same index. -/
theorem find_closest_color_total_det (c : rgb_triple) :
    find_closest_color c palette < 16 ∧
    ∀ c2 : rgb_triple, c2.blue = c.blue → c2.green = c.green → c2.red = c.red →
      find_closest_color c2 palette = find_closest_color c palette := by
  constructor
  · exact (find_closest_color_least c (palette.headD qzero) palette.tail).1
  · intro c2 hb hg hr
    have hc : c2 = c := by
      cases c2
      cases c
      simp_all
    rw [hc]

/-- Witness for C9 at the concrete color (5, 6, 7). -/
theorem find_closest_color_total_det_witness :
    find_closest_color ⟨5, 6, 7⟩ palette < 16 ∧
    find_closest_color ⟨5, 6, 7⟩ palette = find_closest_color ⟨5, 6, 7⟩ palette :=
  ⟨(find_closest_color_total_det ⟨5, 6, 7⟩).1,
   (find_closest_color_total_det ⟨5, 6, 7⟩).2 ⟨5, 6, 7⟩ rfl rfl rfl⟩

/-- C10 counterexample: the claim asserts that whenever 3*W is not a
multiple of 4, the pixels of every row after the first are read starting
at offsets that include the padding bytes of the preceding rows.  For
W = 3 (3*W mod 4 = 1) the loop consumes 6 * ceil(3/2) = 12 bytes for row
0, exactly the padded 24-bit row stride ceil(9/4)*4 = 12, so the reads of
row 1 start exactly at the true row 1 offset 54 + 12 = 66: they start
after the padding bytes of row 0 (offsets 63..65) and are not shifted
into them at all. -/
theorem padding_claim_counterexample :
    3 * 3 % 4 ≠ 0 ∧
    (convert_rows (fun _ => 0) 3 1 54).2 = 54 + (3 * 3 + 3) / 4 * 4 ∧
    ¬ (convert_rows (fun _ => 0) 3 1 54).2 < 54 + (3 * 3 + 3) / 4 * 4 :=
  ⟨by decide, rfl, by decide⟩

/-- C10 (amended): for every width w in int32 range the converter consumes
exactly 6 * ceil(w/2) input bytes per row, contiguously and without ever
skipping the 4-byte row alignment padding of the 24-bit input; and when w
is even and 3*w is not a multiple of 4, every row r >= 1 is read starting
at offset 54 + 3*w*r, strictly before the true padded row offset
54 + r*ceil(3*w/4)*4, with the reads of row 1 starting exactly at the
first padding byte of row 0 — so those rows take the padding bytes of the
preceding rows as pixel data.  (For odd w the pair over-read consumes
3*(w+1) bytes per row, which can exactly equal the padded stride, as the
counterexample shows.) -/
theorem row_consumption_and_shift (s : Nat → Nat) (w r : Nat)
    (hw : w < 2147483648) :
    (convert_rows s w r 54).2 = 54 + r * (6 * ((w + 1) / 2)) ∧
    (w % 2 = 0 → 3 * w % 4 ≠ 0 → 1 ≤ r →
      (convert_rows s w r 54).2 < 54 + r * ((3 * w + 3) / 4 * 4) ∧
      (convert_rows s w 1 54).2 = 54 + 3 * w) := by
  have hc := convert_rows_cursor s w r 54
  refine ⟨hc, ?_⟩
  intro heven hmod hr
  have h6 : 6 * ((w + 1) / 2) = 3 * w := by omega
  have hstride : 3 * w < (3 * w + 3) / 4 * 4 := by omega
  constructor
  · rw [hc, h6]
    exact Nat.add_lt_add_left
      (mul_lt_mul_of_pos_left hstride (show 0 < r by omega)) 54
  · rw [convert_rows_cursor s w 1 54]
    omega

/-- Witness for C10 at width 2, one row. -/
theorem row_consumption_and_shift_witness :
    (convert_rows (fun _ => 0) 2 1 54).2 = 54 + 1 * (6 * ((2 + 1) / 2)) ∧
    (convert_rows (fun _ => 0) 2 1 54).2 < 54 + 1 * ((3 * 2 + 3) / 4 * 4) :=
  ⟨(row_consumption_and_shift (fun _ => 0) 2 1 (by decide)).1,
   ((row_consumption_and_shift (fun _ => 0) 2 1 (by decide)).2
     (by decide) (by decide) (by decide)).1⟩
